import Mathlib

/-!
Verification development for the zotero-ls citation completion pipeline.

The definitions below are a shallow embedding of the Python sources:

* `src/zotero_ls/json_rpc.py` — JSON-RPC request/response data model, the
  response-shape validator, and the HTTP client `send_request`;
* `src/zotero_ls/bbt/rpc.py` — the Better BibTeX facade (`Translators`,
  `export_items` and the positional-parameter construction);
* `src/zotero_ls/bbt/db.py` — the citation-key table rows and
  `fetch_citekeys`;
* `src/zotero_ls/filetypes/__init__.py` and `filetypes/tex.py` — filetype
  selection and the citation trigger regex `CITE_PATTERNS`;
* `src/zotero_ls/cli.py` — the LSP handlers `_completions` and
  `_resolve_completion_item`.

Python machine-level details are made explicit: exceptions become `Except`,
the async transport becomes a function argument, the fresh `uuid4` request id
becomes a `freshId` argument, and the regex is compiled by hand into
executable list matchers.  Character classes model the ASCII fragment of
Python's `[a-zA-Z]` and `\s` (the inputs of interest are ASCII; all theorems
are parametric in the class predicates).
-/

namespace ZoteroLs

/-- JSON values (`pydantic.JsonValue`).  Numbers are modelled as integers:
no claim depends on float payloads. -/
inductive Json where
  | null
  | bool (b : Bool)
  | num (n : Int)
  | str (s : String)
  | arr (xs : List Json)
  | obj (kvs : List (String × Json))

/-- `Json.isNull` mirrors Python's `x is None` test on a parsed
`JsonValue | None` field (JSON `null` and an absent field both parse to
Python `None`). -/
def Json.isNull : Json → Bool
  | .null => true
  | _ => false

/-- A JSON-RPC id: `str | int` in `json_rpc.py`. -/
inductive RpcId where
  | str (s : String)
  | num (n : Int)
deriving DecidableEq

/-- `JsonRpcErrorPayload` from `json_rpc.py`: `code: int`, `message: str`,
`data: JsonValue | None = None` (absent data is JSON null). -/
structure JsonRpcErrorPayload where
  code : Int
  message : String
  data : Json := .null

/-- JSON-RPC request params: `None | list[JsonValue] | dict[str, JsonValue]`. -/
inductive Params where
  | null
  | list (xs : List Json)
  | obj (kvs : List (String × Json))

/-- `JsonRpcRequest` from `json_rpc.py`.  The `id` default factory
`str(uuid.uuid4())` is modelled by passing the fresh string explicitly. -/
structure JsonRpcRequest where
  jsonrpc : String := "2.0"
  id : RpcId
  method : String
  params : Params := .null

/-- A parsed `JsonRpcResponse` before the model validator runs.
`result = Json.null` models Python `result is None` (absent or JSON null);
`id = none` models `id is None`. -/
structure JsonRpcResponse where
  jsonrpc : String
  id : Option RpcId := none
  result : Json := .null
  error : Option JsonRpcErrorPayload := none

/-- The pydantic validation of `JsonRpcResponse`: the `jsonrpc: Literal["2.0"]`
field check followed by the `_result_or_error` model validator
(`json_rpc.py` lines 55-61), with the exact `ValueError` messages. -/
def validateResponse (r : JsonRpcResponse) : Except String JsonRpcResponse :=
  if r.jsonrpc = "2.0" then
    if r.result.isNull && r.error.isNone then
      .error "Either result or error must be present in JsonRpcResponse"
    else if !r.result.isNull && r.error.isSome then
      .error "Only one of result or error must be in JsonRpcResponse"
    else
      .ok r
  else
    .error "Input should be 2.0"

/-- Transport-level failures raised by `aiohttp` inside `session.post`
(connection errors, timeouts, and `raise_for_status=True` on a non-success
HTTP status). -/
inductive TransportFailure where
  | clientError
  | timeout
  | badStatus (status : Nat)
deriving DecidableEq

/-- The ways `JsonRpcClient.send_request` can fail: a propagated transport
exception, a pydantic `ValidationError` from `model_validate_json` (the
spec's `MalformedResponse`), a failed Python `assert`, or a raised
`JsonRpcError` (the spec's `RemoteError`). -/
inductive RpcFailure where
  | transportError (e : TransportFailure)
  | validationError (msg : String)
  | assertionFailed
  | jsonRpcError (payload : JsonRpcErrorPayload)

/-- `JsonRpcClient.send_request` (`json_rpc.py` lines 75-87).  The transport
is the behaviour of `session.post` followed by reading the body: it either
raises a transport failure or delivers a parsed response.  `freshId` is the
`str(uuid.uuid4())` generated for this call.  The branch structure mirrors
the source line by line: validate the parsed response; if `error` is set,
`assert response.result is None`, `assert response.id is None`, then raise
`JsonRpcError(response.error)`; otherwise `assert response.result is not
None`, `assert request.id == response.id`, and return `response.result`. -/
def send_request
    (transport : String → JsonRpcRequest → Except TransportFailure JsonRpcResponse)
    (url : String) (freshId : String) (method : String) (data : Params) :
    Except RpcFailure Json :=
  let request : JsonRpcRequest := { id := RpcId.str freshId, method := method, params := data }
  match transport url request with
  | .error e => .error (.transportError e)
  | .ok parsed =>
    match validateResponse parsed with
    | .error msg => .error (.validationError msg)
    | .ok response =>
      match response.error with
      | some payload =>
        match response.result with
        | .null =>
          match response.id with
          | none => .error (.jsonRpcError payload)
          | some _ => .error .assertionFailed
        | _ => .error .assertionFailed
      | none =>
        match response.result with
        | .null => .error .assertionFailed
        | r =>
          match response.id with
          | some rid => if rid = request.id then .ok r else .error .assertionFailed
          | none => .error .assertionFailed

/-- The `Translators` string enumeration from `bbt/rpc.py`. -/
inductive Translators where
  | BIBTEX
  | BIBLATEX
  | BIBTEX_CITATION_KEY
  | CSL_JSON
  | CSL_YAML
  | JSON
deriving DecidableEq

/-- The `StrEnum` value of each translator (its JSON serialization). -/
def Translators.value : Translators → String
  | .BIBTEX => "Better BibTeX"
  | .BIBLATEX => "Better BibLaTeX"
  | .BIBTEX_CITATION_KEY => "Better BibTeX Citation Key Quick Copy"
  | .CSL_JSON => "Better CSL JSON"
  | .CSL_YAML => "Better CSL YAML"
  | .JSON => "BetterBibTeX JSON"

/-- The positional params built by `Client.export_items` (`bbt/rpc.py`
lines 66-70) as they appear on the wire: a two-element list
`(citekeys, translator)` when `library_id` is `None`, a three-element list
`(citekeys, translator, library_id)` otherwise.  The `Translators` member
serializes to its string value. -/
def exportItemsParams (citekeys : List String) (translator : Translators)
    (library_id : Option String) : List Json :=
  match library_id with
  | some lib => [Json.arr (citekeys.map Json.str), Json.str translator.value, Json.str lib]
  | none => [Json.arr (citekeys.map Json.str), Json.str translator.value]

/-- The JSON-RPC request sent by `Client.export_items` via `Client._send`:
method `"item.export"` with the positional params above. -/
def export_items_request (freshId : String) (citekeys : List String)
    (translator : Translators) (library_id : Option String) : JsonRpcRequest :=
  { id := RpcId.str freshId, method := "item.export",
    params := Params.list (exportItemsParams citekeys translator library_id) }

/-- `Client.export_items` (`bbt/rpc.py` lines 66-73): send `"item.export"`
to `"/better-bibtex/json-rpc"` and `assert isinstance(response, str)`. -/
def export_items
    (transport : String → JsonRpcRequest → Except TransportFailure JsonRpcResponse)
    (freshId : String) (citekeys : List String) (translator : Translators)
    (library_id : Option String) : Except RpcFailure String :=
  match send_request transport "/better-bibtex/json-rpc" freshId "item.export"
      (Params.list (exportItemsParams citekeys translator library_id)) with
  | .error e => .error e
  | .ok (Json.str s) => .ok s
  | .ok _ => .error .assertionFailed

/-- A row of the `citationkey` table (`bbt/db.py` `_CitationKeyEntry`):
`key` is the `itemKey` column, `citation_key` is the `citationKey` column. -/
structure CitationKeyEntry where
  item_id : Int
  key : String
  library_id : String
  citation_key : String
  pinned : Bool
deriving DecidableEq

/-- The `CitationKey` dataclass from `bbt/db.py`: `key` is the citation-key
string (e.g. `"doe2020"`), `zotero_key` the Zotero item key. -/
structure CitationKey where
  key : String
  zotero_key : String
  library_id : String
deriving DecidableEq

/-- `Database.fetch_citekeys` (`bbt/db.py` lines 75-80) over the store's
rows: yields `(row.key, CitationKey(row.citation_key, row.key,
row.library_id))` per row — the first tuple component is the `itemKey`
column. -/
def fetch_citekeys (rows : List CitationKeyEntry) : List (String × CitationKey) :=
  rows.map (fun r => (r.key, { key := r.citation_key, zotero_key := r.key,
                               library_id := r.library_id }))

/-! ### The citation trigger regex

`CITE_PATTERNS` (identical in `filetypes/tex.py` and `cli.py`):

  `\\(?:[a-zA-Z]*cite|Cite)[a-zA-Z]*\*?(?:\s*\[[^]]*\]|\s*\<[^>]*\>){0,2}\s*\{[^}]*$`

compiled by hand into executable matchers over `List Char`, written in
continuation-passing style so that the same pipeline recognizes both the
full pattern (continuation: the `[^}]*$` tail) and the opener alone
(continuation: end of input). -/

/-- The ASCII character class `[a-zA-Z]`. -/
def isAlphaAscii (c : Char) : Bool :=
  (decide ('a' ≤ c) && decide (c ≤ 'z')) || (decide ('A' ≤ c) && decide (c ≤ 'Z'))

/-- The character class `\s` (ASCII fragment: space, tab, newline, carriage
return, vertical tab, form feed). -/
def isSpacePy (c : Char) : Bool :=
  c == ' ' || c == '\t' || c == '\n' || c == '\r' || c == '\x0b' || c == '\x0c'

/-- Match `p*` then continue with `q`: all splits of a `p`-prefix. -/
def matchStarSeq (p : Char → Bool) (q : List Char → Bool) : List Char → Bool
  | [] => q []
  | c :: rest => q (c :: rest) || (p c && matchStarSeq p q rest)

/-- Match the literal `lit` then continue with `q`. -/
def matchPrefixSeq : List Char → (List Char → Bool) → List Char → Bool
  | [], q, s => q s
  | _ :: _, _, [] => false
  | c :: lit, q, x :: s => x == c && matchPrefixSeq lit q s

/-- Match `[^cl]*` then the literal close character `cl`, then continue with
`q` (the unique split is at the first occurrence of `cl`). -/
def scanTo (cl : Char) (q : List Char → Bool) : List Char → Bool
  | [] => false
  | x :: rest => (x == cl && q rest) || (x != cl && scanTo cl q rest)

/-- Match the optional star `\*?` then continue with `q`. -/
def matchStarOptSeq (q : List Char → Bool) : List Char → Bool
  | [] => q []
  | c :: rest => q (c :: rest) || (c == '*' && q rest)

/-- Match a bracketed group `\[[^]]*\]` or `\<[^>]*\>` then continue with
`q`. -/
def qualGroup (q : List Char → Bool) : List Char → Bool
  | [] => false
  | c :: r => (c == '[' && scanTo ']' q r) || (c == '<' && scanTo '>' q r)

/-- Match one qualifier group `\s*\[[^]]*\]` or `\s*\<[^>]*\>` then continue
with `q`. -/
def qualSeq (q : List Char → Bool) (s : List Char) : Bool :=
  matchStarSeq isSpacePy (qualGroup q) s

/-- Match `(qualifier){0,2}` then continue with `q`. -/
def qualsUpTo2 (q : List Char → Bool) (s : List Char) : Bool :=
  q s || qualSeq (fun s1 => q s1 || qualSeq q s1) s

/-- Match `\{` then continue with `q`. -/
def withBrace (q : List Char → Bool) : List Char → Bool
  | [] => false
  | c :: rest => c == '{' && q rest

/-- The literal `cite`. -/
def citeLit : List Char := ['c', 'i', 't', 'e']

/-- The literal `Cite`. -/
def citeCapLit : List Char := ['C', 'i', 't', 'e']

/-- After the command name: `\*?(?:\s*\[[^]]*\]|\s*\<[^>]*\>){0,2}\s*\{`
then continue with `q`. -/
def afterName (q : List Char → Bool) (s : List Char) : Bool :=
  matchStarOptSeq
    (fun s1 => qualsUpTo2 (fun s2 => matchStarSeq isSpacePy (withBrace q) s2) s1) s

/-- The trailing `[a-zA-Z]*` of the command name, then `afterName`. -/
def nameTail (q : List Char → Bool) (s : List Char) : Bool :=
  matchStarSeq isAlphaAscii (afterName q) s

/-- The command name `(?:[a-zA-Z]*cite|Cite)` followed by `nameTail`. -/
def citeHead (q : List Char → Bool) (s : List Char) : Bool :=
  matchStarSeq isAlphaAscii (fun s1 => matchPrefixSeq citeLit (nameTail q) s1) s
    || matchPrefixSeq citeCapLit (nameTail q) s

/-- A whole citation command: backslash, head, star, qualifiers, brace,
then continuation `q` on what follows the opening brace. -/
def citeCmd (q : List Char → Bool) : List Char → Bool
  | [] => false
  | c :: rest => c == '\\' && citeHead q rest

/-- `[^}]*$`: the rest of the input holds no closing brace. -/
def noCloseBrace (s : List Char) : Bool :=
  s.all (fun c => c != '}')

/-- A full match of `CITE_PATTERNS` starting at the head of `s` and
anchored at the end of input. -/
def citeCore (s : List Char) : Bool :=
  citeCmd noCloseBrace s

/-- `s` is exactly a citation-command opener (everything up to and
including the opening brace). -/
def citeOpenerExact (s : List Char) : Bool :=
  citeCmd List.isEmpty s

/-- `re.search(CITE_PATTERNS, s) is not None`: some suffix of `s` is a full
match (the `$` anchor forces every match to end at the end of input). -/
def searchCite (s : List Char) : Bool :=
  (List.range (s.length + 1)).any (fun i => citeCore (s.drop i))

/-- The spec's `TriggerMatch`: whether the trigger fired and the matched
command span. -/
structure TriggerMatch where
  matched : Bool
  startOffset : Nat
  endOffset : Nat
deriving DecidableEq

/-- The trigger detector: `re.search` returns the leftmost match; with the
`$` anchor the span always ends at the input's length. -/
def detect (s : List Char) : TriggerMatch :=
  match (List.range (s.length + 1)).find? (fun i => citeCore (s.drop i)) with
  | some i => { matched := true, startOffset := i, endOffset := s.length }
  | none => { matched := false, startOffset := 0, endOffset := 0 }

/-- Python `str.strip()` (ASCII whitespace fragment). -/
def pyStrip (s : List Char) : List Char :=
  ((s.dropWhile isSpacePy).reverse.dropWhile isSpacePy).reverse

/-- An LSP completion item as built by `cli.py`: the label passed to the
`CompletionItem` constructor and the optional documentation attached on
resolve. -/
structure LspCompletionItem where
  label : String
  documentation : Option String := none
deriving DecidableEq

/-- The `_completions` handler (`cli.py` lines 93-107): take the document's
current line at the request position, `strip()` it, test
`CITE_PATTERNS.search`, and if it matches, build one `CompletionItem` per
row streamed by `fetch_citekeys`, labelled with the first tuple component;
otherwise return `None`.  The cursor column `charNo` is accepted (it is
part of `params.position`) and, as in the source, never read. -/
def _completions (lines : List (List Char)) (lineNo : Nat) (_charNo : Nat)
    (rows : List CitationKeyEntry) : Option (List LspCompletionItem) :=
  let current_line := pyStrip (lines.getD lineNo [])
  if searchCite current_line then
    some ((fetch_citekeys rows).map (fun kv => { label := kv.fst }))
  else
    none

/-- The `_resolve_completion_item` handler (`cli.py` lines 109-121): if no
RPC client is configured return the item unchanged; otherwise call
`export_items([item.label], Translators.BIBTEX)` and attach the exported
text as markdown documentation.  There is no exception handler: a failed
export propagates and aborts the resolve request, which the `Except`
embedding records as `.error`. -/
def _resolve_completion_item
    (rpcTransport : Option (String → JsonRpcRequest → Except TransportFailure JsonRpcResponse))
    (freshId : String) (item : LspCompletionItem) :
    Except RpcFailure LspCompletionItem :=
  match rpcTransport with
  | none => .ok item
  | some transport =>
    match export_items transport freshId [item.label] Translators.BIBTEX none with
    | .error e => .error e
    | .ok exported =>
      .ok { item with documentation := some ("```bibtex\n" ++ exported ++ "\n```") }

/-- Errors a Python function can raise in `filetypes/__init__.py`:
an `IndexError` from out-of-bounds indexing or a raised `ValueError`. -/
inductive PyError where
  | indexError
  | valueError (msg : String)
deriving DecidableEq

/-- Identifier for a compiled trigger-pattern object. -/
inductive CitePatternId where
  | tex
deriving DecidableEq

/-- The search function denoted by each pattern object. -/
def CitePatternId.search : CitePatternId → List Char → Bool
  | .tex => searchCite

/-- `get_cite_patterns` (`filetypes/__init__.py` lines 6-13). -/
def get_cite_patterns (filetype : String) : Except PyError CitePatternId :=
  match filetype with
  | "tex" | "latex" => .ok .tex
  | _ => .error (.valueError ("Unknown/unsupported filetype " ++ filetype))

/-- `get_filetype_from_extension` (`filetypes/__init__.py` lines 16-27):
`ext[0]` on the empty string raises `IndexError`; otherwise a leading dot is
stripped and the extension matched. -/
def get_filetype_from_extension (ext : String) : Except PyError String :=
  match ext.data with
  | [] => .error .indexError
  | c :: rest =>
    let ext2 : String := if c = '.' then String.mk rest else ext
    match ext2 with
    | "tex" | "latex" => .ok ext2
    | "md" | "qmd" | "markdown" => .ok "markdown"
    | _ => .error (.valueError ("Unknown/unsupported file extension " ++ ext2))

/-! ### The declarative grammar of the spec (4.1 / claim C3)

An unclosed citation command: a backslash, a cite-family command name, an
optional star, zero to two bracketed or angle-bracketed qualifier groups,
optional whitespace, an opening brace, and no closing brace before the end
of the prefix. -/

/-- A cite-family command name: letters containing the infix `cite`, or
letters starting with `Cite`. -/
def IsCiteName (n : List Char) : Prop :=
  (∃ u v, n = u ++ citeLit ++ v ∧ u.all isAlphaAscii = true ∧ v.all isAlphaAscii = true)
    ∨ (∃ v, n = citeCapLit ++ v ∧ v.all isAlphaAscii = true)

/-- One qualifier group: optional whitespace then `[...]` (no `]` inside)
or `<...>` (no `>` inside). -/
def IsQual (a : List Char) : Prop :=
  ∃ ws mid, ws.all isSpacePy = true ∧
    ((a = ws ++ '[' :: (mid ++ [']']) ∧ mid.all (fun c => c != ']') = true)
      ∨ (a = ws ++ '<' :: (mid ++ ['>']) ∧ mid.all (fun c => c != '>') = true))

/-- Zero, one or two qualifier groups. -/
def IsQuals2 (qs : List Char) : Prop :=
  qs = [] ∨ IsQual qs ∨ ∃ q1 q2, qs = q1 ++ q2 ∧ IsQual q1 ∧ IsQual q2

/-- A citation-command opener: backslash, name, optional star, qualifiers,
whitespace, opening brace. -/
def IsCiteOpener (o : List Char) : Prop :=
  ∃ name star quals ws,
    o = '\\' :: (name ++ star ++ quals ++ ws ++ ['{']) ∧
    IsCiteName name ∧ (star = [] ∨ star = ['*']) ∧ IsQuals2 quals ∧
    ws.all isSpacePy = true

/-- An unclosed citation command: an opener followed by a body free of
closing braces, reaching the end of the text. -/
def IsUnclosedCiteCmd (t : List Char) : Prop :=
  ∃ o body, t = o ++ body ∧ IsCiteOpener o ∧ noCloseBrace body = true

/-- The prefix ends in an unclosed citation command: some suffix is one. -/
def EndsInUnclosedCite (s : List Char) : Prop :=
  ∃ a t, s = a ++ t ∧ IsUnclosedCiteCmd t

/-- A citation-command opener ends at offset `i` of `s` (executable). -/
def openerEndsAt (s : List Char) (i : Nat) : Bool :=
  decide (i ≤ s.length) &&
    (List.range (i + 1)).any (fun k => citeOpenerExact ((s.take i).drop k))

/-- Brace balance over `{`/`}` (other characters ignored), by depth
counter: no unmatched closer, depth zero at the end. -/
def balAux : List Char → Nat → Bool
  | [], d => d == 0
  | c :: rest, d =>
    if c = '{' then balAux rest (d + 1)
    else if c = '}' then
      match d with
      | 0 => false
      | d2 + 1 => balAux rest d2
    else balAux rest d

/-- The braces occurring in `s` are balanced. -/
def balancedBraces (s : List Char) : Bool :=
  balAux s 0

/-- A concrete `citationkey` table row used in evaluations: itemID 1,
itemKey "ABCD1234", libraryID "1", citationKey "doe2020", not pinned. -/
def sampleRow : CitationKeyEntry :=
  { item_id := 1, key := "ABCD1234", library_id := "1", citation_key := "doe2020", pinned := false }

/-- The concrete error payload code -32000 / message "not found". -/
def notFoundPayload : JsonRpcErrorPayload :=
  { code := -32000, message := "not found" }

/-! ### Soundness and completeness of the hand-compiled regex

Each matcher combinator is characterized against the declarative split it
implements; composing the characterizations yields the equivalence of
`CITE_PATTERNS` search with the spec grammar. -/

theorem matchStarSeq_iff (p : Char → Bool) (q : List Char → Bool) :
    ∀ s, matchStarSeq p q s = true ↔
      ∃ a b, s = a ++ b ∧ a.all p = true ∧ q b = true := by
  intro s
  induction s with
  | nil =>
    constructor
    · intro h
      exact ⟨[], [], rfl, rfl, h⟩
    · rintro ⟨a, b, hs, _, hb⟩
      obtain ⟨ha, hbnil⟩ := List.append_eq_nil.mp hs.symm
      subst hbnil
      exact hb
  | cons c rest ih =>
    simp only [matchStarSeq, Bool.or_eq_true, Bool.and_eq_true]
    constructor
    · rintro (h | ⟨hp, hm⟩)
      · exact ⟨[], c :: rest, rfl, rfl, h⟩
      · obtain ⟨a, b, hs, ha, hb⟩ := ih.mp hm
        refine ⟨c :: a, b, ?_, ?_, hb⟩
        · rw [List.cons_append, hs]
        · simp [List.all_cons, hp, ha]
    · rintro ⟨a, b, hs, ha, hb⟩
      cases a with
      | nil =>
        left
        rw [List.nil_append] at hs
        rw [hs]
        exact hb
      | cons x a2 =>
        right
        rw [List.cons_append] at hs
        injection hs with h1 h2
        subst h1
        simp only [List.all_cons, Bool.and_eq_true] at ha
        exact ⟨ha.1, ih.mpr ⟨a2, b, h2, ha.2, hb⟩⟩

theorem matchPrefixSeq_iff (lit : List Char) (q : List Char → Bool) :
    ∀ s, matchPrefixSeq lit q s = true ↔ ∃ b, s = lit ++ b ∧ q b = true := by
  induction lit with
  | nil =>
    intro s
    constructor
    · intro h
      exact ⟨s, rfl, h⟩
    · rintro ⟨b, hs, hb⟩
      rw [List.nil_append] at hs
      rw [hs]
      exact hb
  | cons c lit2 ih =>
    intro s
    cases s with
    | nil =>
      simp only [matchPrefixSeq]
      constructor
      · intro h
        exact absurd h (by simp)
      · rintro ⟨b, hs, _⟩
        exact absurd hs (by simp)
    | cons x s2 =>
      simp only [matchPrefixSeq, Bool.and_eq_true, beq_iff_eq]
      constructor
      · rintro ⟨hx, hm⟩
        obtain ⟨b, hs, hb⟩ := (ih s2).mp hm
        exact ⟨b, by rw [hx, hs, List.cons_append], hb⟩
      · rintro ⟨b, hs, hb⟩
        rw [List.cons_append] at hs
        injection hs with h1 h2
        exact ⟨h1, (ih s2).mpr ⟨b, h2, hb⟩⟩

theorem scanTo_iff (cl : Char) (q : List Char → Bool) :
    ∀ s, scanTo cl q s = true ↔
      ∃ a b, s = a ++ cl :: b ∧ a.all (fun x => x != cl) = true ∧ q b = true := by
  intro s
  induction s with
  | nil =>
    simp only [scanTo]
    constructor
    · intro h
      exact absurd h (by simp)
    · rintro ⟨a, b, hs, _, _⟩
      exact absurd hs (by simp)
  | cons x rest ih =>
    simp only [scanTo, Bool.or_eq_true, Bool.and_eq_true, beq_iff_eq, bne_iff_ne]
    constructor
    · rintro (⟨hx, hq⟩ | ⟨hx, hm⟩)
      · exact ⟨[], rest, by rw [hx, List.nil_append], rfl, hq⟩
      · obtain ⟨a, b, hs, ha, hb⟩ := ih.mp hm
        refine ⟨x :: a, b, by rw [hs, List.cons_append], ?_, hb⟩
        simp [List.all_cons, ha, bne_iff_ne, hx]
    · rintro ⟨a, b, hs, ha, hb⟩
      cases a with
      | nil =>
        rw [List.nil_append] at hs
        injection hs with h1 h2
        subst h2
        exact Or.inl ⟨h1, hb⟩
      | cons y a2 =>
        rw [List.cons_append] at hs
        injection hs with h1 h2
        subst h1
        simp only [List.all_cons, Bool.and_eq_true, bne_iff_ne] at ha
        exact Or.inr ⟨ha.1, ih.mpr ⟨a2, b, h2, ha.2, hb⟩⟩

theorem matchStarOptSeq_iff (q : List Char → Bool) (s : List Char) :
    matchStarOptSeq q s = true ↔
      ∃ st b, s = st ++ b ∧ (st = [] ∨ st = ['*']) ∧ q b = true := by
  cases s with
  | nil =>
    simp only [matchStarOptSeq]
    constructor
    · intro h
      exact ⟨[], [], rfl, Or.inl rfl, h⟩
    · rintro ⟨st, b, hs, hst, hb⟩
      obtain ⟨h1, h2⟩ := List.append_eq_nil.mp hs.symm
      subst h2
      exact hb
  | cons c rest =>
    simp only [matchStarOptSeq, Bool.or_eq_true, Bool.and_eq_true, beq_iff_eq]
    constructor
    · rintro (h | ⟨hc, h⟩)
      · exact ⟨[], c :: rest, rfl, Or.inl rfl, h⟩
      · exact ⟨['*'], rest, by rw [hc, List.cons_append, List.nil_append], Or.inr rfl, h⟩
    · rintro ⟨st, b, hs, (hst | hst), hb⟩
      · subst hst
        rw [List.nil_append] at hs
        rw [hs]
        exact Or.inl hb
      · subst hst
        rw [List.cons_append, List.nil_append] at hs
        injection hs with h1 h2
        subst h2
        exact Or.inr ⟨h1, hb⟩

theorem withBrace_iff (q : List Char → Bool) (s : List Char) :
    withBrace q s = true ↔ ∃ b, s = '{' :: b ∧ q b = true := by
  cases s with
  | nil =>
    simp only [withBrace]
    constructor
    · intro h
      exact absurd h (by simp)
    · rintro ⟨b, hs, _⟩
      exact absurd hs (by simp)
  | cons c rest =>
    simp only [withBrace, Bool.and_eq_true, beq_iff_eq]
    constructor
    · rintro ⟨hc, hq⟩
      exact ⟨rest, by rw [hc], hq⟩
    · rintro ⟨b, hs, hb⟩
      injection hs with h1 h2
      subst h2
      exact ⟨h1, hb⟩

theorem qualGroup_iff (q : List Char → Bool) (s : List Char) :
    qualGroup q s = true ↔
      ∃ mid b, ((s = '[' :: (mid ++ ']' :: b) ∧ mid.all (fun x => x != ']') = true)
          ∨ (s = '<' :: (mid ++ '>' :: b) ∧ mid.all (fun x => x != '>') = true))
        ∧ q b = true := by
  cases s with
  | nil =>
    simp only [qualGroup]
    constructor
    · intro h
      exact absurd h (by simp)
    · rintro ⟨mid, b, (⟨hs, _⟩ | ⟨hs, _⟩), _⟩ <;> exact absurd hs (by simp)
  | cons c r =>
    simp only [qualGroup, Bool.or_eq_true, Bool.and_eq_true, beq_iff_eq]
    constructor
    · rintro (⟨hc, hscan⟩ | ⟨hc, hscan⟩)
      · obtain ⟨a, b, hr, ha, hb⟩ := (scanTo_iff ']' q r).mp hscan
        exact ⟨a, b, Or.inl ⟨by rw [hc, hr], ha⟩, hb⟩
      · obtain ⟨a, b, hr, ha, hb⟩ := (scanTo_iff '>' q r).mp hscan
        exact ⟨a, b, Or.inr ⟨by rw [hc, hr], ha⟩, hb⟩
    · rintro ⟨mid, b, (⟨hs, hmid⟩ | ⟨hs, hmid⟩), hb⟩
      · injection hs with h1 h2
        exact Or.inl ⟨h1, (scanTo_iff ']' q r).mpr ⟨mid, b, h2, hmid, hb⟩⟩
      · injection hs with h1 h2
        exact Or.inr ⟨h1, (scanTo_iff '>' q r).mpr ⟨mid, b, h2, hmid, hb⟩⟩

theorem qualSeq_iff (q : List Char → Bool) (s : List Char) :
    qualSeq q s = true ↔ ∃ a b, s = a ++ b ∧ IsQual a ∧ q b = true := by
  unfold qualSeq
  rw [matchStarSeq_iff]
  constructor
  · rintro ⟨ws, s1, hs, hws, hg⟩
    obtain ⟨mid, b, (⟨hs1, hmid⟩ | ⟨hs1, hmid⟩), hb⟩ := (qualGroup_iff q s1).mp hg
    · refine ⟨ws ++ '[' :: (mid ++ [']']), b, ?_, ⟨ws, mid, hws, Or.inl ⟨rfl, hmid⟩⟩, hb⟩
      rw [hs, hs1]
      simp [List.append_assoc]
    · refine ⟨ws ++ '<' :: (mid ++ ['>']), b, ?_, ⟨ws, mid, hws, Or.inr ⟨rfl, hmid⟩⟩, hb⟩
      rw [hs, hs1]
      simp [List.append_assoc]
  · rintro ⟨a, b, hs, ⟨ws, mid, hws, (⟨ha, hmid⟩ | ⟨ha, hmid⟩)⟩, hb⟩
    · refine ⟨ws, '[' :: (mid ++ ']' :: b), ?_, hws,
        (qualGroup_iff q _).mpr ⟨mid, b, Or.inl ⟨rfl, hmid⟩, hb⟩⟩
      rw [hs, ha]
      simp [List.append_assoc]
    · refine ⟨ws, '<' :: (mid ++ '>' :: b), ?_, hws,
        (qualGroup_iff q _).mpr ⟨mid, b, Or.inr ⟨rfl, hmid⟩, hb⟩⟩
      rw [hs, ha]
      simp [List.append_assoc]

theorem qualsUpTo2_iff (q : List Char → Bool) (s : List Char) :
    qualsUpTo2 q s = true ↔ ∃ qs b, s = qs ++ b ∧ IsQuals2 qs ∧ q b = true := by
  unfold qualsUpTo2
  simp only [Bool.or_eq_true]
  constructor
  · rintro (h | h)
    · exact ⟨[], s, rfl, Or.inl rfl, h⟩
    · obtain ⟨q1, b1, hs, hq1, hinner⟩ := (qualSeq_iff _ s).mp h
      simp only [Bool.or_eq_true] at hinner
      rcases hinner with hb1 | hb1
      · exact ⟨q1, b1, hs, Or.inr (Or.inl hq1), hb1⟩
      · obtain ⟨q2, b2, hb1e, hq2, hb2⟩ := (qualSeq_iff q b1).mp hb1
        refine ⟨q1 ++ q2, b2, ?_, Or.inr (Or.inr ⟨q1, q2, rfl, hq1, hq2⟩), hb2⟩
        rw [hs, hb1e, List.append_assoc]
  · rintro ⟨qs, b, hs, (hqs | hqs | ⟨q1, q2, hqs, hq1, hq2⟩), hb⟩
    · subst hqs
      rw [List.nil_append] at hs
      subst hs
      exact Or.inl hb
    · refine Or.inr ((qualSeq_iff _ s).mpr ⟨qs, b, hs, hqs, ?_⟩)
      simp only [Bool.or_eq_true]
      exact Or.inl hb
    · refine Or.inr ((qualSeq_iff _ s).mpr ⟨q1, q2 ++ b, ?_, hq1, ?_⟩)
      · rw [hs, hqs, List.append_assoc]
      · simp only [Bool.or_eq_true]
        exact Or.inr ((qualSeq_iff q _).mpr ⟨q2, b, rfl, hq2, hb⟩)

theorem afterName_iff (q : List Char → Bool) (s : List Char) :
    afterName q s = true ↔
      ∃ star quals ws b, s = star ++ (quals ++ (ws ++ '{' :: b)) ∧
        (star = [] ∨ star = ['*']) ∧ IsQuals2 quals ∧
        ws.all isSpacePy = true ∧ q b = true := by
  unfold afterName
  rw [matchStarOptSeq_iff]
  constructor
  · rintro ⟨star, s1, hs, hstar, h1⟩
    obtain ⟨quals, s2, hs1, hquals, h2⟩ := (qualsUpTo2_iff _ s1).mp h1
    obtain ⟨ws, s3, hs2, hws, h3⟩ := (matchStarSeq_iff isSpacePy (withBrace q) s2).mp h2
    obtain ⟨b, hs3, hb⟩ := (withBrace_iff q s3).mp h3
    refine ⟨star, quals, ws, b, ?_, hstar, hquals, hws, hb⟩
    rw [hs, hs1, hs2, hs3]
  · rintro ⟨star, quals, ws, b, hs, hstar, hquals, hws, hb⟩
    refine ⟨star, quals ++ (ws ++ '{' :: b), hs, hstar, ?_⟩
    refine (qualsUpTo2_iff _ _).mpr ⟨quals, ws ++ '{' :: b, rfl, hquals, ?_⟩
    refine (matchStarSeq_iff isSpacePy (withBrace q) _).mpr ⟨ws, '{' :: b, rfl, hws, ?_⟩
    exact (withBrace_iff q _).mpr ⟨b, rfl, hb⟩

theorem citeHead_iff (q : List Char → Bool) (s : List Char) :
    citeHead q s = true ↔
      ∃ name rest, s = name ++ rest ∧ IsCiteName name ∧ afterName q rest = true := by
  unfold citeHead nameTail
  simp only [Bool.or_eq_true]
  constructor
  · rintro (h | h)
    · obtain ⟨u, s1, hs, hu, h1⟩ := (matchStarSeq_iff isAlphaAscii _ s).mp h
      obtain ⟨s2, hs1, h2⟩ := (matchPrefixSeq_iff citeLit _ s1).mp h1
      obtain ⟨v, rest, hs2, hv, hafter⟩ := (matchStarSeq_iff isAlphaAscii _ s2).mp h2
      refine ⟨u ++ citeLit ++ v, rest, ?_, Or.inl ⟨u, v, rfl, hu, hv⟩, hafter⟩
      rw [hs, hs1, hs2]
      simp [List.append_assoc]
    · obtain ⟨s2, hs, h2⟩ := (matchPrefixSeq_iff citeCapLit _ s).mp h
      obtain ⟨v, rest, hs2, hv, hafter⟩ := (matchStarSeq_iff isAlphaAscii _ s2).mp h2
      refine ⟨citeCapLit ++ v, rest, ?_, Or.inr ⟨v, rfl, hv⟩, hafter⟩
      rw [hs, hs2]
      simp [List.append_assoc]
  · rintro ⟨name, rest, hs, (⟨u, v, hname, hu, hv⟩ | ⟨v, hname, hv⟩), hafter⟩
    · left
      refine (matchStarSeq_iff isAlphaAscii _ s).mpr ⟨u, citeLit ++ (v ++ rest), ?_, hu, ?_⟩
      · rw [hs, hname]
        simp [List.append_assoc]
      · refine (matchPrefixSeq_iff citeLit _ _).mpr ⟨v ++ rest, rfl, ?_⟩
        exact (matchStarSeq_iff isAlphaAscii _ _).mpr ⟨v, rest, rfl, hv, hafter⟩
    · right
      refine (matchPrefixSeq_iff citeCapLit _ s).mpr ⟨v ++ rest, ?_, ?_⟩
      · rw [hs, hname]
        simp [List.append_assoc]
      · exact (matchStarSeq_iff isAlphaAscii _ _).mpr ⟨v, rest, rfl, hv, hafter⟩

theorem citeCmd_iff (q : List Char → Bool) (s : List Char) :
    citeCmd q s = true ↔ ∃ o b, s = o ++ b ∧ IsCiteOpener o ∧ q b = true := by
  cases s with
  | nil =>
    simp only [citeCmd]
    constructor
    · intro h
      exact absurd h (by simp)
    · rintro ⟨o, b, hs, ⟨name, star, quals, ws, ho, _⟩, _⟩
      rw [ho] at hs
      exact absurd hs (by simp)
  | cons c rest =>
    simp only [citeCmd, Bool.and_eq_true, beq_iff_eq]
    constructor
    · rintro ⟨hc, hh⟩
      obtain ⟨name, rest1, hrest, hname, hafter⟩ := (citeHead_iff q rest).mp hh
      obtain ⟨star, quals, ws, b, hrest1, hstar, hquals, hws, hb⟩ :=
        (afterName_iff q rest1).mp hafter
      refine ⟨'\\' :: (name ++ star ++ quals ++ ws ++ ['{']), b, ?_,
        ⟨name, star, quals, ws, rfl, hname, hstar, hquals, hws⟩, hb⟩
      rw [hc, hrest, hrest1]
      simp [List.append_assoc]
    · rintro ⟨o, b, hs, ⟨name, star, quals, ws, ho, hname, hstar, hquals, hws⟩, hb⟩
      rw [ho, List.cons_append] at hs
      injection hs with h1 h2
      refine ⟨h1, (citeHead_iff q rest).mpr
        ⟨name, star ++ (quals ++ (ws ++ '{' :: b)), ?_,
          hname, (afterName_iff q _).mpr ⟨star, quals, ws, b, rfl, hstar, hquals, hws, hb⟩⟩⟩
      rw [h2]
      simp [List.append_assoc]

theorem citeCore_iff (s : List Char) : citeCore s = true ↔ IsUnclosedCiteCmd s :=
  citeCmd_iff noCloseBrace s

theorem citeOpenerExact_iff (s : List Char) :
    citeOpenerExact s = true ↔ IsCiteOpener s := by
  unfold citeOpenerExact
  rw [citeCmd_iff]
  constructor
  · rintro ⟨o, b, hs, ho, hb⟩
    rw [List.isEmpty_iff] at hb
    subst hb
    rw [List.append_nil] at hs
    rw [hs]
    exact ho
  · intro h
    exact ⟨s, [], (List.append_nil s).symm, h, rfl⟩

theorem searchCite_iff (s : List Char) :
    searchCite s = true ↔ EndsInUnclosedCite s := by
  unfold searchCite
  rw [List.any_eq_true]
  constructor
  · rintro ⟨i, _, hc⟩
    exact ⟨s.take i, s.drop i, (List.take_append_drop i s).symm, (citeCore_iff _).mp hc⟩
  · rintro ⟨a, t, hs, hcmd⟩
    refine ⟨a.length, ?_, ?_⟩
    · rw [List.mem_range, hs, List.length_append]
      omega
    · rw [hs, List.drop_left]
      exact (citeCore_iff t).mpr hcmd

theorem detect_matched_eq (s : List Char) : (detect s).matched = searchCite s := by
  unfold detect searchCite
  cases hf : (List.range (s.length + 1)).find? (fun i => citeCore (s.drop i)) with
  | some i =>
    exact (List.any_eq_true.mpr
      ⟨i, List.mem_of_find?_eq_some hf, List.find?_some hf⟩).symm
  | none =>
    exact (List.any_eq_false.mpr (List.find?_eq_none.mp hf)).symm

theorem detect_endOffset_of_search (s : List Char) (h : searchCite s = true) :
    (detect s).endOffset = s.length := by
  unfold detect
  cases hf : (List.range (s.length + 1)).find? (fun i => citeCore (s.drop i)) with
  | some i => rfl
  | none =>
    exfalso
    obtain ⟨i, hm, hp⟩ := List.any_eq_true.mp h
    exact (List.find?_eq_none.mp hf i hm) hp

theorem balAux_le_count : ∀ (l : List Char) (d : Nat), balAux l d = true → d ≤ l.count '}'
  | [], d, h => by
    simp only [balAux, beq_iff_eq] at h
    simp [h]
  | c :: rest, d, h => by
    by_cases h1 : c = '{'
    · simp only [balAux] at h
      rw [if_pos h1] at h
      have hrec := balAux_le_count rest (d + 1) h
      have hc : (c == '}') = false := by
        rw [h1]
        decide
      rw [List.count_cons, hc]
      omega
    · by_cases h2 : c = '}'
      · simp only [balAux] at h
        rw [if_neg h1, if_pos h2] at h
        cases d with
        | zero => simp
        | succ d2 =>
          have hh : balAux rest d2 = true := h
          have hrec := balAux_le_count rest d2 hh
          have hc : (c == '}') = true := by
            rw [h2]
            decide
          rw [List.count_cons, hc, if_pos rfl]
          omega
      · simp only [balAux] at h
        rw [if_neg h1, if_neg h2] at h
        have hrec := balAux_le_count rest d h
        have hc : (c == '}') = false := beq_eq_false_iff_ne.mpr h2
        rw [List.count_cons, hc]
        omega

/-! ### The claims -/

/-- C3: for every prefix ending in an unclosed citation command of the
grammar (backslash, a cite-family command name, optional star, 0-2 bracketed
or angle-bracketed qualifier groups, then an opening brace with no closing
brace before the end), `detect` returns a match whose command span ends
exactly at the prefix length; and for every prefix whose braces are
balanced from the opening brace of the last citation command onward,
`detect` returns no match. -/
theorem trigger_detection_correct (s : List Char) :
    (EndsInUnclosedCite s →
      (detect s).matched = true ∧ (detect s).endOffset = s.length) ∧
    (∀ i, openerEndsAt s i = true →
      (∀ j, j < s.length + 1 → openerEndsAt s j = true → j ≤ i) →
      balancedBraces (s.drop (i - 1)) = true →
      (detect s).matched = false) := by
  constructor
  · intro hE
    have hsearch : searchCite s = true := (searchCite_iff s).mpr hE
    exact ⟨by rw [detect_matched_eq, hsearch], detect_endOffset_of_search s hsearch⟩
  · intro i hopen hlast hbal
    rw [detect_matched_eq]
    cases hsc : searchCite s with
    | false => rfl
    | true =>
      exfalso
      obtain ⟨a, t, hst, o, body, hto, hop, hnob⟩ := (searchCite_iff s).mp hsc
      subst hto
      have hlen : s.length = a.length + o.length + body.length := by
        rw [hst, List.length_append, List.length_append]
        omega
      have htake : s.take (a.length + o.length) = a ++ o := by
        rw [hst, ← List.append_assoc]
        exact List.take_left' (List.length_append a o)
      have hopex : citeOpenerExact o = true := (citeOpenerExact_iff o).mpr hop
      have holen : 0 < o.length := by
        obtain ⟨nm, st, ql, ws, ho, -, -, -, -⟩ := hop
        rw [ho, List.length_cons]
        omega
      have hEnds : openerEndsAt s (a.length + o.length) = true := by
        unfold openerEndsAt
        rw [htake, Bool.and_eq_true]
        refine ⟨decide_eq_true (by omega), ?_⟩
        refine List.any_eq_true.mpr ⟨a.length, List.mem_range.mpr (by omega), ?_⟩
        rw [List.drop_left]
        exact hopex
      have hei : a.length + o.length ≤ i := hlast _ (by omega) hEnds
      have hopen2 := hopen
      unfold openerEndsAt at hopen2
      rw [Bool.and_eq_true] at hopen2
      obtain ⟨hile, hany⟩ := hopen2
      have hile2 : i ≤ s.length := of_decide_eq_true hile
      obtain ⟨k, hkmem, hk⟩ := List.any_eq_true.mp hany
      have hko : IsCiteOpener ((s.take i).drop k) := (citeOpenerExact_iff _).mp hk
      obtain ⟨nm, st, ql, ws, ho2, -, -, -, -⟩ := hko
      have ho3 : (s.take i).drop k = ('\\' :: (nm ++ st ++ ql ++ ws)) ++ ['{'] := by
        rw [ho2]
        simp [List.append_assoc, List.cons_append]
      have hti : (s.take i).length = i := by
        rw [List.length_take]
        exact min_eq_left hile2
      have hsplit1 : s.take i
          = ((s.take i).take k ++ ('\\' :: (nm ++ st ++ ql ++ ws))) ++ ['{'] := by
        conv_lhs => rw [← List.take_append_drop k (s.take i)]
        rw [ho3]
        simp [List.append_assoc]
      have hclen : ((s.take i).take k ++ ('\\' :: (nm ++ st ++ ql ++ ws))).length
          = i - 1 := by
        have h4 := congrArg List.length hsplit1
        rw [hti] at h4
        simp [List.length_append] at h4 ⊢
        omega
      have hsplit2 : s
          = ((s.take i).take k ++ ('\\' :: (nm ++ st ++ ql ++ ws))) ++ ('{' :: s.drop i) := by
        conv_lhs => rw [← List.take_append_drop i s, hsplit1]
        simp [List.append_assoc]
      have hdropi : s.drop (i - 1) = '{' :: s.drop i := by
        conv_lhs => rw [hsplit2]
        rw [← hclen, List.drop_left]
      rw [hdropi] at hbal
      unfold balancedBraces at hbal
      simp only [balAux] at hbal
      simp at hbal
      have hcount := balAux_le_count (s.drop i) 1 hbal
      have hmem : '}' ∈ s.drop i := List.count_pos_iff.mp (by omega)
      have hbody : s.drop (a.length + o.length) = body := by
        rw [hst, ← List.append_assoc]
        exact List.drop_left' (List.length_append a o)
      have hfin : '}' ∈ body := by
        have hdd : (s.drop (a.length + o.length)).drop (i - (a.length + o.length))
            = s.drop i := by
          rw [List.drop_drop]
          congr 1
          omega
        rw [← hdd, hbody] at hmem
        exact List.mem_of_mem_drop hmem
      unfold noCloseBrace at hnob
      rw [List.all_eq_true] at hnob
      have hcontra := hnob '}' hfin
      simp at hcontra

/-- Witness for C3: the prefix `\cite{d` ends in an unclosed citation
command and triggers with span end 7; in `\cite{a}` the braces after the
last citation command are balanced and the trigger does not fire. -/
theorem trigger_detection_correct_witness :
    ((detect ['\\', 'c', 'i', 't', 'e', '{', 'd']).matched = true
      ∧ (detect ['\\', 'c', 'i', 't', 'e', '{', 'd']).endOffset = 7)
  ∧ (detect ['\\', 'c', 'i', 't', 'e', '{', 'a', '}']).matched = false := by
  constructor
  · have hcmd : IsUnclosedCiteCmd ['\\', 'c', 'i', 't', 'e', '{', 'd'] :=
      ⟨['\\', 'c', 'i', 't', 'e', '{'], ['d'], by decide,
        ⟨['c', 'i', 't', 'e'], [], [], [], by decide,
          Or.inl ⟨[], [], by decide, rfl, rfl⟩, Or.inl rfl, Or.inl rfl, rfl⟩,
        by decide⟩
    exact (trigger_detection_correct _).1 ⟨[], _, rfl, hcmd⟩
  · exact (trigger_detection_correct _).2 6 (by decide) (by decide) (by decide)

/-- C1: on a triggered request over the row (itemID 1, itemKey "ABCD1234",
libraryID "1", citationKey "doe2020"), `_completions` labels the single
candidate with the `itemKey` column value "ABCD1234" — the first component
of the `fetch_citekeys` tuples — while the `CitationKey.key` field of the
same row is "doe2020", so the candidate label is not the citation-key
string. -/
theorem completion_labels_use_item_key_column :
    _completions [['\\', 'c', 'i', 't', 'e', '{']] 0 6 [sampleRow]
      = some [{ label := "ABCD1234" }]
  ∧ (fetch_citekeys [sampleRow]).map (fun kv => kv.snd.key) = ["doe2020"]
  ∧ _completions [['\\', 'c', 'i', 't', 'e', '{']] 0 6 [sampleRow]
      ≠ some [{ label := "doe2020" }] := by
  refine ⟨?_, ?_, ?_⟩ <;> decide

/-- Counterexample for C2: when the export call receives the error response
code -32000 / "not found", `_resolve_completion_item` fails with the raised
`JsonRpcError` instead of returning the candidate without documentation. -/
theorem resolve_error_response_aborts_request :
    _resolve_completion_item
        (some (fun _ _ =>
          .ok { jsonrpc := "2.0", id := none, result := Json.null, error := some notFoundPayload }))
        "id0" { label := "doe2020" }
      = .error (.jsonRpcError notFoundPayload)
  ∧ _resolve_completion_item
        (some (fun _ _ =>
          .ok { jsonrpc := "2.0", id := none, result := Json.null, error := some notFoundPayload }))
        "id0" { label := "doe2020" }
      ≠ .ok { label := "doe2020" } := by
  refine ⟨rfl, ?_⟩
  intro hc
  have h0 : (Except.error (RpcFailure.jsonRpcError notFoundPayload)
      : Except RpcFailure LspCompletionItem) = .ok { label := "doe2020" } := hc
  exact Except.noConfusion h0

/-- C2 amended: when the export call fails — with a `RemoteError` or a
`TransportError` — the resolve handler propagates that failure and the
resolve request aborts; the candidate is returned undocumented only when no
RPC client is configured. -/
theorem resolve_propagates_export_failure
    (transport : String → JsonRpcRequest → Except TransportFailure JsonRpcResponse)
    (freshId : String) (item : LspCompletionItem) (e : RpcFailure)
    (h : export_items transport freshId [item.label] Translators.BIBTEX none = .error e) :
    _resolve_completion_item (some transport) freshId item = .error e := by
  simp only [_resolve_completion_item, h]

/-- Witness for C2 amended: a transport timeout propagates out of the
resolve handler unchanged. -/
theorem resolve_propagates_export_failure_witness :
    export_items (fun _ _ => .error TransportFailure.timeout) "id0" ["doe2020"]
        Translators.BIBTEX none = .error (.transportError TransportFailure.timeout)
  ∧ _resolve_completion_item (some (fun _ _ => .error TransportFailure.timeout)) "id0"
        { label := "doe2020" } = .error (.transportError TransportFailure.timeout) :=
  ⟨rfl, resolve_propagates_export_failure _ "id0" { label := "doe2020" } _ rfl⟩

/-- C4: `export_items` sends method "item.export" with a two-element
positional params list when `library_id` is absent and a three-element list
when it is given; the BibTeX translator serializes as the string
"Better BibTeX", and no null third element is appended. -/
theorem export_items_wire_shape (freshId : String) (keys : List String)
    (tr : Translators) (lib : String) :
    (export_items_request freshId keys tr none).method = "item.export"
  ∧ (export_items_request freshId keys tr (some lib)).method = "item.export"
  ∧ (export_items_request freshId keys tr none).params
      = Params.list [Json.arr (keys.map Json.str), Json.str tr.value]
  ∧ (export_items_request freshId keys tr (some lib)).params
      = Params.list [Json.arr (keys.map Json.str), Json.str tr.value, Json.str lib]
  ∧ Translators.BIBTEX.value = "Better BibTeX" :=
  ⟨rfl, rfl, rfl, rfl, rfl⟩

/-- C5: a received response with both `result` and `error` set, or with
neither set, makes `send_request` fail with the validation error (the
spec's `MalformedResponse`) — no value is ever returned. -/
theorem malformed_response_never_returns
    (raw : JsonRpcResponse) (url freshId method : String) (data : Params)
    (h : (raw.result = Json.null ∧ raw.error = none)
        ∨ (raw.result ≠ Json.null ∧ ∃ p, raw.error = some p)) :
    ∃ msg, send_request (fun _ _ => .ok raw) url freshId method data
      = .error (.validationError msg) := by
  by_cases hj : raw.jsonrpc = "2.0"
  · rcases h with ⟨h1, h2⟩ | ⟨h1, p, h2⟩
    · refine ⟨"Either result or error must be present in JsonRpcResponse", ?_⟩
      have hv : validateResponse raw
          = Except.error "Either result or error must be present in JsonRpcResponse" := by
        unfold validateResponse
        rw [if_pos hj, if_pos (by simp [h1, h2, Json.isNull])]
      simp only [send_request]
      rw [hv]
    · refine ⟨"Only one of result or error must be in JsonRpcResponse", ?_⟩
      have hnn : raw.result.isNull = false := by
        cases hr : raw.result <;> simp [Json.isNull]
        exact h1 hr
      have hv : validateResponse raw
          = Except.error "Only one of result or error must be in JsonRpcResponse" := by
        unfold validateResponse
        rw [if_pos hj, if_neg (by simp [hnn]), if_pos (by simp [hnn, h2])]
      simp only [send_request]
      rw [hv]
  · refine ⟨"Input should be 2.0", ?_⟩
    have hv : validateResponse raw = Except.error "Input should be 2.0" := by
      unfold validateResponse
      rw [if_neg hj]
    simp only [send_request]
    rw [hv]

/-- Witness for C5: a response carrying both a result and an error is
rejected with a validation error. -/
theorem malformed_response_never_returns_witness :
    ∃ msg, send_request (fun _ _ =>
        .ok { jsonrpc := "2.0", id := none, result := Json.str "x", error := some notFoundPayload })
      "u" "f" "mth" Params.null = .error (.validationError msg) :=
  malformed_response_never_returns _ "u" "f" "mth" Params.null
    (Or.inr ⟨fun hc => Json.noConfusion hc, notFoundPayload, rfl⟩)

/-- C6: a call whose transport echoes back a well-formed response carrying
`result = X` under the request's own correlation id returns `X` unchanged
(`X ≠ null` is exactly the validator's well-formedness requirement for a
success response: a JSON-null result parses as an absent one). -/
theorem call_identity_on_result (X : Json) (url freshId method : String) (data : Params)
    (hX : X ≠ Json.null) :
    send_request
      (fun _ req => .ok { jsonrpc := "2.0", id := some req.id, result := X, error := none })
      url freshId method data = .ok X := by
  cases X with
  | null => exact absurd rfl hX
  | bool b => simp [send_request, validateResponse, Json.isNull]
  | num n => simp [send_request, validateResponse, Json.isNull]
  | str s => simp [send_request, validateResponse, Json.isNull]
  | arr xs => simp [send_request, validateResponse, Json.isNull]
  | obj kvs => simp [send_request, validateResponse, Json.isNull]

/-- Witness for C6: echoing the string result "v" returns exactly "v". -/
theorem call_identity_on_result_witness :
    Json.str "v" ≠ Json.null
  ∧ send_request
      (fun _ req => .ok { jsonrpc := "2.0", id := some req.id, result := Json.str "v", error := none })
      "u" "f" "mth" Params.null = .ok (Json.str "v") :=
  ⟨fun hc => Json.noConfusion hc,
    call_identity_on_result (Json.str "v") "u" "f" "mth" Params.null
      (fun hc => Json.noConfusion hc)⟩

/-- Counterexample for C7: an error response that carries an id (here
"abc") makes the client fail the `assert response.id is None` — an
`AssertionError`, not a `RemoteError` carrying the payload. -/
theorem error_response_with_id_fails_assertion :
    send_request (fun _ _ =>
        .ok { jsonrpc := "2.0", id := some (RpcId.str "abc"), result := Json.null, error := some notFoundPayload })
      "/better-bibtex/json-rpc" "id0" "item.export" Params.null = .error .assertionFailed
  ∧ send_request (fun _ _ =>
        .ok { jsonrpc := "2.0", id := some (RpcId.str "abc"), result := Json.null, error := some notFoundPayload })
      "/better-bibtex/json-rpc" "id0" "item.export" Params.null
      ≠ .error (.jsonRpcError notFoundPayload) := by
  refine ⟨rfl, ?_⟩
  intro hc
  have h0 : (Except.error RpcFailure.assertionFailed : Except RpcFailure Json)
      = .error (.jsonRpcError notFoundPayload) := hc
  injection h0 with h1
  exact RpcFailure.noConfusion h1

/-- C7 amended: an error response whose id is null makes the call fail with
a `RemoteError` carrying exactly the payload's code, message and data; an
error response carrying any non-null id instead trips the client's internal
assertion and fails with an `AssertionError`. -/
theorem remote_error_requires_null_id
    (payload : JsonRpcErrorPayload) (rid : RpcId) (url freshId method : String)
    (data : Params) :
    send_request (fun _ _ =>
        .ok { jsonrpc := "2.0", id := none, result := Json.null, error := some payload })
      url freshId method data = .error (.jsonRpcError payload)
  ∧ send_request (fun _ _ =>
        .ok { jsonrpc := "2.0", id := some rid, result := Json.null, error := some payload })
      url freshId method data = .error .assertionFailed :=
  ⟨rfl, rfl⟩

/-- Counterexample for C8: two documents agreeing on the current line up to
the cursor column 7 but differing after it produce different completion
outcomes, because `_completions` searches the whole (stripped) line and
ignores the cursor column. -/
theorem completion_depends_on_text_after_cursor :
    (['\\', 'c', 'i', 't', 'e', '{', 'd'] : List Char).take 7
        = (['\\', 'c', 'i', 't', 'e', '{', 'd', '}', 'x'] : List Char).take 7
  ∧ _completions [['\\', 'c', 'i', 't', 'e', '{', 'd']] 0 7 [sampleRow]
      = some [{ label := "ABCD1234" }]
  ∧ _completions [['\\', 'c', 'i', 't', 'e', '{', 'd', '}', 'x']] 0 7 [sampleRow] = none
  ∧ _completions [['\\', 'c', 'i', 't', 'e', '{', 'd']] 0 7 [sampleRow]
      ≠ _completions [['\\', 'c', 'i', 't', 'e', '{', 'd', '}', 'x']] 0 7 [sampleRow] := by
  refine ⟨?_, ?_, ?_, ?_⟩ <;> decide

/-- C8 amended: the completion outcome is determined by the stripped text
of the whole current line — two requests whose current lines strip to the
same text get identical results, whatever their cursor columns. -/
theorem completion_determined_by_current_line
    (lines1 lines2 : List (List Char)) (n1 n2 c1 c2 : Nat)
    (rows : List CitationKeyEntry)
    (h : pyStrip (lines1.getD n1 []) = pyStrip (lines2.getD n2 [])) :
    _completions lines1 n1 c1 rows = _completions lines2 n2 c2 rows := by
  unfold _completions
  rw [h]

/-- Witness for C8 amended: leading and trailing whitespace strip to the
same line, and different cursor columns give the same result. -/
theorem completion_determined_by_current_line_witness :
    pyStrip (([[' ', '\\', 'c', 'i', 't', 'e', '{']] : List (List Char)).getD 0 [])
      = pyStrip (([['\\', 'c', 'i', 't', 'e', '{', ' ']] : List (List Char)).getD 0 [])
  ∧ _completions [[' ', '\\', 'c', 'i', 't', 'e', '{']] 0 0 []
      = _completions [['\\', 'c', 'i', 't', 'e', '{', ' ']] 0 5 [] :=
  ⟨by decide,
    completion_determined_by_current_line _ _ 0 0 0 5 [] (by decide)⟩

/-- C9: every markdown extension (with or without a leading dot) is
accepted by `get_filetype_from_extension` and mapped to "markdown", yet
`get_cite_patterns "markdown"` raises the unsupported-filetype error, while
tex and latex are served the tex pattern. -/
theorem markdown_extension_accepted_but_patterns_unsupported :
    get_filetype_from_extension "md" = .ok "markdown"
  ∧ get_filetype_from_extension ".md" = .ok "markdown"
  ∧ get_filetype_from_extension "qmd" = .ok "markdown"
  ∧ get_filetype_from_extension ".qmd" = .ok "markdown"
  ∧ get_filetype_from_extension "markdown" = .ok "markdown"
  ∧ get_filetype_from_extension ".markdown" = .ok "markdown"
  ∧ get_cite_patterns "markdown"
      = .error (.valueError "Unknown/unsupported filetype markdown")
  ∧ get_cite_patterns "tex" = .ok .tex
  ∧ get_cite_patterns "latex" = .ok .tex :=
  ⟨rfl, rfl, rfl, rfl, rfl, rfl, rfl, rfl, rfl⟩

/-- C10: `get_filetype_from_extension` on the empty string hits the
unguarded `ext[0]` and fails with `IndexError`; on every non-empty input
the indexing is in bounds, so an `IndexError` never occurs. -/
theorem empty_extension_raises_index_error :
    get_filetype_from_extension "" = .error .indexError
  ∧ ∀ ext : String, ext ≠ "" → get_filetype_from_extension ext ≠ .error .indexError := by
  refine ⟨rfl, ?_⟩
  intro ext hne h
  obtain ⟨d⟩ := ext
  cases d with
  | nil => exact hne rfl
  | cons c rest =>
    unfold get_filetype_from_extension at h
    dsimp only at h
    split at h <;> simp_all

/-- Witness for C10: "md" is non-empty and does not raise `IndexError`. -/
theorem empty_extension_raises_index_error_witness :
    ("md" : String) ≠ ""
  ∧ get_filetype_from_extension "md" ≠ .error .indexError :=
  ⟨by decide, empty_extension_raises_index_error.2 "md" (by decide)⟩

end ZoteroLs
